import Mathlib

/-!
Verification of the go-weather console application (`main.go`).

The development shallowly embeds the core of the program:

* the cache-key generator `generateCacheKey` (an md5 hex digest of a
  `%.4f-%.4f-d%v-h%v-u%s` formatted material string),
* the disk cache `checkCache` / `saveToCache` / `getCacheDir` over an explicit
  filesystem state,
* the unit lookups `getTempUnit` / `getWindUnit` / `getPrecipUnit`, and
* the temperature colorizer `colorizeTemp` (Fahrenheit normalization step and
  the temperature-range color selection).

Modelling conventions: Go `float64` coordinates and temperatures are modelled
as `ℚ` (temperatures through `GoFloat`, which adds the IEEE NaN value whose
comparisons are all false); `time.Time` values are integers counting seconds,
so the one-hour `cacheDuration` is `3600`; the JSON codec is modelled as an
injective embedding of the structured values into file blobs, per its
round-trip contract; `os.TempDir()` is the constant `/tmp`.
-/

/-! ### MD5 (crypto/md5), used by generateCacheKey -/

/-- Arithmetic modulo 2^32, for md5's 32-bit words. -/
def madd (a b : Nat) : Nat := (a + b) % 4294967296

/-- Left rotation of a 32-bit word. -/
def rotl (x s : Nat) : Nat := ((x <<< s) + (x >>> (32 - s))) % 4294967296

/-- Bitwise complement of a 32-bit word. -/
def mnot (x : Nat) : Nat := x ^^^ 0xffffffff

/-- The md5 sine-derived round constants. -/
def mK : List Nat :=
  [0xd76aa478, 0xe8c7b756, 0x242070db, 0xc1bdceee,
   0xf57c0faf, 0x4787c62a, 0xa8304613, 0xfd469501,
   0x698098d8, 0x8b44f7af, 0xffff5bb1, 0x895cd7be,
   0x6b901122, 0xfd987193, 0xa679438e, 0x49b40821,
   0xf61e2562, 0xc040b340, 0x265e5a51, 0xe9b6c7aa,
   0xd62f105d, 0x02441453, 0xd8a1e681, 0xe7d3fbc8,
   0x21e1cde6, 0xc33707d6, 0xf4d50d87, 0x455a14ed,
   0xa9e3e905, 0xfcefa3f8, 0x676f02d9, 0x8d2a4c8a,
   0xfffa3942, 0x8771f681, 0x6d9d6122, 0xfde5380c,
   0xa4beea44, 0x4bdecfa9, 0xf6bb4b60, 0xbebfbc70,
   0x289b7ec6, 0xeaa127fa, 0xd4ef3085, 0x04881d05,
   0xd9d4d039, 0xe6db99e5, 0x1fa27cf8, 0xc4ac5665,
   0xf4292244, 0x432aff97, 0xab9423a7, 0xfc93a039,
   0x655b59c3, 0x8f0ccc92, 0xffeff47d, 0x85845dd1,
   0x6fa87e4f, 0xfe2ce6e0, 0xa3014314, 0x4e0811a1,
   0xf7537e82, 0xbd3af235, 0x2ad7d2bb, 0xeb86d391]

/-- The md5 per-round left-rotation amounts. -/
def mS : List Nat :=
  [7, 12, 17, 22, 7, 12, 17, 22, 7, 12, 17, 22, 7, 12, 17, 22,
   5, 9, 14, 20, 5, 9, 14, 20, 5, 9, 14, 20, 5, 9, 14, 20,
   4, 11, 16, 23, 4, 11, 16, 23, 4, 11, 16, 23, 4, 11, 16, 23,
   6, 10, 15, 21, 6, 10, 15, 21, 6, 10, 15, 21, 6, 10, 15, 21]

/-- The md5 nonlinear mixing function of round `i`. -/
def md5F (i b c d : Nat) : Nat :=
  if i < 16 then (b &&& c) ||| (mnot b &&& d)
  else if i < 32 then (d &&& b) ||| (mnot d &&& c)
  else if i < 48 then b ^^^ c ^^^ d
  else c ^^^ (b ||| mnot d)

/-- The md5 message-word index of round `i`. -/
def md5G (i : Nat) : Nat :=
  if i < 16 then i
  else if i < 32 then (5 * i + 1) % 16
  else if i < 48 then (3 * i + 5) % 16
  else (7 * i) % 16

/-- One of the 64 md5 rounds over the state `(a, b, c, d)`. -/
def md5Step (M : List Nat) (st : Nat × Nat × Nat × Nat) (i : Nat) :
    Nat × Nat × Nat × Nat :=
  let (a, b, c, d) := st
  let f := madd (madd (madd (md5F i b c d) a) (mK.getD i 0)) (M.getD (md5G i) 0)
  (d, madd b (rotl f (mS.getD i 0)), b, c)

/-- Process one 16-word chunk, adding the round output into the running state. -/
def md5Chunk (st : Nat × Nat × Nat × Nat) (M : List Nat) :
    Nat × Nat × Nat × Nat :=
  let (a0, b0, c0, d0) := st
  let (a, b, c, d) := (List.range 64).foldl (md5Step M) (a0, b0, c0, d0)
  (madd a0 a, madd b0 b, madd c0 c, madd d0 d)

/-- md5 padding: a `0x80` byte, zeros to 56 mod 64, then the 64-bit
little-endian bit length. -/
def padMsg (msg : List Nat) : List Nat :=
  let len := msg.length
  let zeros := (119 - len % 64) % 64
  let bitLen := (8 * len) % (2 ^ 64)
  msg ++ [128] ++ List.replicate zeros 0 ++
    (List.range 8).map (fun i => (bitLen >>> (8 * i)) % 256)

/-- Split a byte list into 64-byte chunks (fuel-indexed structural recursion;
the fuel is an upper bound on the number of chunks). -/
def toChunks : Nat → List Nat → List (List Nat)
  | 0, _ => []
  | _ + 1, [] => []
  | fuel + 1, l => l.take 64 :: toChunks fuel (l.drop 64)

/-- Decode a 64-byte chunk as 16 little-endian 32-bit words. -/
def chunkWords (c : List Nat) : List Nat :=
  (List.range 16).map (fun j =>
    c.getD (4 * j) 0 + 256 * c.getD (4 * j + 1) 0 +
    65536 * c.getD (4 * j + 2) 0 + 16777216 * c.getD (4 * j + 3) 0)

/-- The four little-endian bytes of a 32-bit word. -/
def le4 (x : Nat) : List Nat :=
  [x % 256, x / 256 % 256, x / 65536 % 256, x / 16777216 % 256]

/-- `md5.Sum`: the 16-byte md5 digest of a byte sequence. -/
def md5Bytes (msg : List Nat) : List Nat :=
  let chunks := (toChunks (msg.length + 9) (padMsg msg)).map chunkWords
  let (a, b, c, d) :=
    chunks.foldl md5Chunk (0x67452301, 0xefcdab89, 0x98badcfe, 0x10325476)
  le4 a ++ le4 b ++ le4 c ++ le4 d

/-- Lowercase hexadecimal digit of a value below 16. -/
def hexChar (n : Nat) : Char :=
  if n < 10 then Char.ofNat (48 + n) else Char.ofNat (87 + n)

/-- `hex.EncodeToString`: lowercase hex encoding of a byte sequence. -/
def hexOfBytes (bs : List Nat) : List Char :=
  bs.flatMap (fun b => [hexChar (b / 16), hexChar (b % 16)])

/-! ### Decimal formatting (fmt.Sprintf verbs used by generateCacheKey) -/

/-- The ASCII character of a decimal digit. -/
def digitChar (d : Nat) : Char := Char.ofNat (48 + d)

/-- Decimal digit characters of a natural number, most significant first
(fuel-indexed structural recursion; correct once `n < 10 ^ fuel`). -/
def natCharsFuel : Nat → Nat → List Char
  | 0, _ => []
  | fuel + 1, n =>
    if n < 10 then [digitChar n]
    else natCharsFuel fuel (n / 10) ++ [digitChar (n % 10)]

/-- Decimal digit characters of a natural number, most significant first. -/
def natChars (n : Nat) : List Char := natCharsFuel (n + 1) n

/-- The four zero-padded low decimal digits of `m`, as printed after the
decimal point by `%.4f`. -/
def pad4 (m : Nat) : List Char :=
  [digitChar (m / 1000 % 10), digitChar (m / 100 % 10),
   digitChar (m / 10 % 10), digitChar (m % 10)]

/-- Digit characters of the magnitude `n` (the value scaled by `10^4`):
integer part, `.`, then four fractional digits — the body of `%.4f`. -/
def numChars (n : Nat) : List Char :=
  natChars (n / 10000) ++ '.' :: pad4 (n % 10000)

/-- The magnitude of `x` rounded to 4 decimal places, scaled by `10^4`.
This is the digit material `%.4f` prints for `x` (Go rounds the binary
float64 value to the nearest 4-decimal string; ties cannot arise for
float64 inputs, so the model's tie convention is immaterial). -/
def scaled4 (x : ℚ) : Nat := (round (|x| * 10000)).natAbs

/-- `fmt.Sprintf "%.4f" x`: optional minus sign, then the rounded digits. -/
def fmt4 (x : ℚ) : List Char :=
  (if x < 0 then ['-'] else []) ++ numChars (scaled4 x)

/-- The 4-decimal representation `%.4f` exposes for a coordinate: the sign
and the rounded, scaled magnitude. -/
def round4rep (x : ℚ) : Bool × Nat := (decide (x < 0), scaled4 x)

/-- `fmt.Sprintf "%v"` of a Go bool. -/
def boolChars : Bool → List Char
  | true => ['t', 'r', 'u', 'e']
  | false => ['f', 'a', 'l', 's', 'e']

/-- The pre-hash key material of `generateCacheKey` (main.go line 471):
`fmt.Sprintf("%.4f-%.4f-d%v-h%v-u%s", lat, lon, daily, hourly, unitSystem)`. -/
def keyMaterial (lat lon : ℚ) (daily hourly : Bool) (unitSystem : String) :
    List Char :=
  fmt4 lat ++ '-' ::
    (fmt4 lon ++ '-' :: 'd' ::
      (boolChars daily ++ '-' :: 'h' ::
        (boolChars hourly ++ '-' :: 'u' :: unitSystem.data)))

/-- `generateCacheKey` (main.go lines 470-474): md5 of the key material,
hex encoded. -/
def generateCacheKey (lat lon : ℚ) (daily hourly : Bool)
    (unitSystem : String) : String :=
  String.mk (hexOfBytes (md5Bytes
    ((keyMaterial lat lon daily hourly unitSystem).map Char.toNat)))

/-! ### Weather data model and the JSON codec collaborators -/

/-- The `current_weather` block of `WeatherData` (main.go lines 386-391).
Temperatures and speeds are modelled over `ℚ`. -/
structure CurrentWeather where
  temperature : ℚ
  windSpeed : ℚ
  weatherCode : ℤ
  time : String
deriving DecidableEq

/-- The `daily` block of `WeatherData` (main.go lines 392-398): parallel
index-aligned series. -/
structure DailyData where
  time : List String
  weatherCode : List ℤ
  temperatureMax : List ℚ
  temperatureMin : List ℚ
  precipitationSum : List ℚ
deriving DecidableEq

/-- The `hourly` block of `WeatherData` (main.go lines 399-404): parallel
index-aligned series. -/
structure HourlyData where
  time : List String
  temperature : List ℚ
  precipitation : List ℚ
  weatherCode : List ℤ
deriving DecidableEq

/-- `WeatherData` (main.go lines 385-405): the decoded weather payload. -/
structure WeatherData where
  currentWeather : CurrentWeather
  daily : DailyData
  hourly : HourlyData
deriving DecidableEq

/-- `CacheFile` (main.go lines 408-411): a `WeatherData` wrapped with its
creation timestamp (seconds). -/
structure CacheFile where
  timestamp : ℤ
  data : WeatherData
deriving DecidableEq

/-- The Go zero value of `WeatherData`, returned by `checkCache` on a miss. -/
def emptyWeatherData : WeatherData :=
  { currentWeather := { temperature := 0, windSpeed := 0, weatherCode := 0, time := "" }
    daily := { time := [], weatherCode := [], temperatureMax := [],
               temperatureMin := [], precipitationSum := [] }
    hourly := { time := [], temperature := [], precipitation := [], weatherCode := [] } }

/-- The spec's parallel-array invariant on a snapshot: within the daily and
hourly blocks all series have the same length. -/
def wellFormed (w : WeatherData) : Prop :=
  w.daily.time.length = w.daily.weatherCode.length ∧
  w.daily.time.length = w.daily.temperatureMax.length ∧
  w.daily.time.length = w.daily.temperatureMin.length ∧
  w.daily.time.length = w.daily.precipitationSum.length ∧
  w.hourly.time.length = w.hourly.temperature.length ∧
  w.hourly.time.length = w.hourly.precipitation.length ∧
  w.hourly.time.length = w.hourly.weatherCode.length

instance (w : WeatherData) : Decidable (wellFormed w) := by
  unfold wellFormed; infer_instance

/-- A file body. The JSON codec collaborator is modelled by its round-trip
contract: an encoded `CacheFile`, a raw API payload that decodes to a
`WeatherData`, or bytes that decode as neither. -/
inductive Blob where
  | cacheEnc (c : CacheFile)
  | rawWeather (w : WeatherData)
  | junk (n : Nat)
deriving DecidableEq

/-- `json.Unmarshal` into `WeatherData`. -/
def decodeWeatherData : Blob → Option WeatherData
  | Blob.rawWeather w => some w
  | _ => none

/-- `json.Unmarshal` into `CacheFile`. -/
def decodeCacheFile : Blob → Option CacheFile
  | Blob.cacheEnc c => some c
  | _ => none

/-- `json.Marshal` of a `CacheFile` (total; marshalling this type cannot
fail in Go). -/
def encodeCacheFile (c : CacheFile) : Blob := Blob.cacheEnc c

/-! ### Filesystem state and the cache store -/

/-- The filesystem state the cache touches: file contents by path (later
writes shadow earlier entries) and the set of existing directories. -/
structure FileSys where
  files : List (String × Blob)
  dirs : List String

/-- `os.ReadFile`: the content at a path, if the file exists. -/
def readFile (fs : FileSys) (path : String) : Option Blob :=
  fs.files.lookup path

/-- `os.WriteFile`: (over)write the file at a path. -/
def writeFile (fs : FileSys) (path : String) (b : Blob) : FileSys :=
  { fs with files := (path, b) :: fs.files }

/-- `os.MkdirAll`: ensure a directory exists. -/
def mkdirAll (dir : String) (fs : FileSys) : FileSys :=
  { fs with dirs := if dir ∈ fs.dirs then fs.dirs else dir :: fs.dirs }

/-- `cacheDuration` (main.go line 20): one hour, in seconds. -/
def cacheDuration : ℤ := 3600

/-- `getCacheDir` (main.go lines 477-481): the shared cache directory under
`os.TempDir()`; note that it runs `os.MkdirAll` on it as a side effect. -/
def getCacheDir (fs : FileSys) : String × FileSys :=
  ("/tmp" ++ "/" ++ "weather-cache", mkdirAll ("/tmp" ++ "/" ++ "weather-cache") fs)

/-- The path of the cache file for a key, as resolved by `checkCache` and
`saveToCache` (`filepath.Join(getCacheDir(), cacheKey+".json")`). -/
def cachePath (cacheKey : String) : String :=
  "/tmp" ++ "/" ++ "weather-cache" ++ "/" ++ (cacheKey ++ ".json")

/-- `checkCache` (main.go lines 484-504): read the cache file for a key and
return its data plus a validity flag; `now` is the current time supplying
`time.Since`. Returns the post-state, which getCacheDir's MkdirAll touches. -/
def checkCache (fs : FileSys) (now : ℤ) (cacheKey : String) :
    (WeatherData × Bool) × FileSys :=
  let p := getCacheDir fs
  let cacheFile := p.1 ++ "/" ++ (cacheKey ++ ".json")
  match readFile p.2 cacheFile with
  | none => ((emptyWeatherData, false), p.2)
  | some blob =>
    match decodeCacheFile blob with
    | none => ((emptyWeatherData, false), p.2)
    | some cache =>
      if now - cache.timestamp > cacheDuration then ((emptyWeatherData, false), p.2)
      else ((cache.data, true), p.2)

/-- `saveToCache` (main.go lines 507-526): validate the raw payload by
decoding it, then wrap it with the current timestamp and write it to the
cache file; on a decode failure return the error with the state untouched. -/
def saveToCache (fs : FileSys) (now : ℤ) (cacheKey : String) (data : Blob) :
    Except String Unit × FileSys :=
  match decodeWeatherData data with
  | none => (Except.error "invalid character looking for beginning of value", fs)
  | some weather =>
    let cache : CacheFile := { timestamp := now, data := weather }
    let cacheData := encodeCacheFile cache
    let p := getCacheDir fs
    let cacheFile := p.1 ++ "/" ++ (cacheKey ++ ".json")
    (Except.ok (), writeFile p.2 cacheFile cacheData)

/-! ### Unit system, unit lookups, and the temperature colorizer -/

/-- `UnitSystem` (main.go line 35) is a Go string type. -/
abbrev UnitSystem := String

/-- `UnitMetric` (main.go line 39). -/
def UnitMetric : UnitSystem := "metric"

/-- `UnitImperial` (main.go line 40). -/
def UnitImperial : UnitSystem := "imperial"

/-- `getTempUnit` (main.go lines 539-544). -/
def getTempUnit (unitSystem : UnitSystem) : String :=
  if unitSystem = UnitImperial then "°F" else "°C"

/-- `getWindUnit` (main.go lines 547-552). -/
def getWindUnit (unitSystem : UnitSystem) : String :=
  if unitSystem = UnitImperial then "mph" else "km/h"

/-- `getPrecipUnit` (main.go lines 555-560). -/
def getPrecipUnit (unitSystem : UnitSystem) : String :=
  if unitSystem = UnitImperial then "in" else "mm"

/-- ANSI color codes (main.go lines 52-61). -/
def colorRed : String := "\x1b[31m"

/-- ANSI green (main.go line 55). -/
def colorGreen : String := "\x1b[32m"

/-- ANSI yellow (main.go line 56). -/
def colorYellow : String := "\x1b[33m"

/-- ANSI blue (main.go line 57). -/
def colorBlue : String := "\x1b[34m"

/-- ANSI magenta (main.go line 58). -/
def colorMagenta : String := "\x1b[35m"

/-- ANSI cyan (main.go line 59). -/
def colorCyan : String := "\x1b[36m"

/-- ANSI white (main.go line 60). -/
def colorWhite : String := "\x1b[37m"

/-- A Go `float64` temperature value: either NaN or a finite value modelled
over `ℚ` (infinities are never produced by the code under study). -/
inductive GoFloat where
  | nan
  | fin (q : ℚ)
deriving DecidableEq

/-- IEEE `<` on float64: every comparison involving NaN is false. -/
def fLt : GoFloat → GoFloat → Bool
  | GoFloat.fin a, GoFloat.fin b => decide (a < b)
  | _, _ => false

/-- IEEE subtraction: NaN propagates. -/
def fSub : GoFloat → GoFloat → GoFloat
  | GoFloat.fin a, GoFloat.fin b => GoFloat.fin (a - b)
  | _, _ => GoFloat.nan

/-- IEEE multiplication: NaN propagates (overflow never arises here). -/
def fMul : GoFloat → GoFloat → GoFloat
  | GoFloat.fin a, GoFloat.fin b => GoFloat.fin (a * b)
  | _, _ => GoFloat.nan

/-- IEEE division: NaN propagates (the only divisor used is the constant 9). -/
def fDiv : GoFloat → GoFloat → GoFloat
  | GoFloat.fin a, GoFloat.fin b => GoFloat.fin (a / b)
  | _, _ => GoFloat.nan

/-- The conversion step of `colorizeTemp` (main.go lines 577-580): convert
the value to Celsius for classification when the unit system is imperial,
`tempC = (temp - 32) * 5 / 9`; otherwise leave it unchanged. -/
def colorizeTempNormalize (temp : GoFloat) (unitSystem : UnitSystem) : GoFloat :=
  if unitSystem = UnitImperial then
    fDiv (fMul (fSub temp (GoFloat.fin 32)) (GoFloat.fin 5)) (GoFloat.fin 9)
  else temp

/-- The color selection of `colorizeTemp` (main.go lines 583-599): the
switch over the Celsius temperature ranges. -/
def colorizeTempColorCode (tempC : GoFloat) : String :=
  if fLt tempC (GoFloat.fin (-10)) then colorBlue
  else if fLt tempC (GoFloat.fin 0) then colorCyan
  else if fLt tempC (GoFloat.fin 15) then colorWhite
  else if fLt tempC (GoFloat.fin 25) then colorGreen
  else if fLt tempC (GoFloat.fin 30) then colorYellow
  else if fLt tempC (GoFloat.fin 35) then colorMagenta
  else colorRed

/-- The color `colorizeTemp` picks for a temperature in the given unit
system (the composition of the conversion and the range switch; the final
`fmt.Sprintf` string assembly is display glue and carries no logic). -/
def colorizeTempColor (temp : GoFloat) (unitSystem : UnitSystem) : String :=
  colorizeTempColorCode (colorizeTempNormalize temp unitSystem)

/-! ### Digit-string lemmas for the key-material injectivity -/

lemma digitChar_toNat {d : Nat} (h : d < 10) : (digitChar d).toNat = 48 + d := by
  have hv : (48 + d).isValidChar := Or.inl (by omega)
  rw [digitChar, Char.ofNat, dif_pos hv]
  rfl

lemma mem_natCharsFuel_digit :
    ∀ fuel n, ∀ c ∈ natCharsFuel fuel n, 48 ≤ c.toNat ∧ c.toNat ≤ 57 := by
  intro fuel
  induction fuel with
  | zero => simp [natCharsFuel]
  | succ fuel ih =>
    intro n c hc
    rw [natCharsFuel] at hc
    split at hc
    · next h =>
      rcases List.mem_singleton.mp hc with rfl
      rw [digitChar_toNat h]; omega
    · next h =>
      rcases List.mem_append.mp hc with h' | h'
      · exact ih _ c h'
      · rcases List.mem_singleton.mp h' with rfl
        rw [digitChar_toNat (Nat.mod_lt _ (by omega))]; omega

lemma mem_natChars_digit {n : Nat} {c : Char} (hc : c ∈ natChars n) :
    48 ≤ c.toNat ∧ c.toNat ≤ 57 :=
  mem_natCharsFuel_digit _ n c hc

lemma mem_pad4_digit {m : Nat} {c : Char} (hc : c ∈ pad4 m) :
    48 ≤ c.toNat ∧ c.toNat ≤ 57 := by
  simp only [pad4, List.mem_cons, List.not_mem_nil, or_false] at hc
  rcases hc with rfl | rfl | rfl | rfl <;>
    (rw [digitChar_toNat (Nat.mod_lt _ (by omega))]; omega)

lemma natCharsFuel_ne_nil (fuel n : Nat) (h : 0 < fuel) :
    natCharsFuel fuel n ≠ [] := by
  cases fuel with
  | zero => omega
  | succ fuel =>
    rw [natCharsFuel]
    split
    · simp
    · simp

lemma natChars_ne_nil (n : Nat) : natChars n ≠ [] :=
  natCharsFuel_ne_nil _ n (by omega)

/-- Parse decimal digit characters back into the number they denote. -/
def valDigits (l : List Char) : Nat :=
  l.foldl (fun a c => 10 * a + (c.toNat - 48)) 0

lemma valDigits_append_singleton (l : List Char) (c : Char) :
    valDigits (l ++ [c]) = 10 * valDigits l + (c.toNat - 48) := by
  simp [valDigits, List.foldl_append]

lemma valDigits_natCharsFuel :
    ∀ fuel n, 0 < fuel → n < 10 ^ fuel → valDigits (natCharsFuel fuel n) = n := by
  intro fuel
  induction fuel with
  | zero => omega
  | succ fuel ih =>
    intro n _ hlt
    rw [natCharsFuel]
    split
    · next h =>
      simp [valDigits, digitChar_toNat h]
    · next h =>
      have hfuel : 0 < fuel := by
        rcases Nat.eq_zero_or_pos fuel with rfl | hf
        · simp at hlt; omega
        · exact hf
      have hdiv : n / 10 < 10 ^ fuel := by
        rw [Nat.div_lt_iff_lt_mul (by omega)]
        calc n < 10 ^ (fuel + 1) := hlt
        _ = 10 ^ fuel * 10 := by rw [Nat.pow_succ]
      rw [valDigits_append_singleton, ih _ hfuel hdiv,
        digitChar_toNat (Nat.mod_lt _ (by omega))]
      omega

lemma valDigits_natChars (n : Nat) : valDigits (natChars n) = n := by
  have hn : n < 10 ^ (n + 1) :=
    lt_of_lt_of_le (Nat.lt_pow_self (by norm_num) n)
      (Nat.pow_le_pow_right (by norm_num) (Nat.le_succ n))
  exact valDigits_natCharsFuel _ n (by omega) hn

lemma natChars_inj {a b : Nat} (h : natChars a = natChars b) : a = b := by
  have := valDigits_natChars a
  rw [h, valDigits_natChars] at this
  omega

lemma pad4_inj {m₁ m₂ : Nat} (h₁ : m₁ < 10000) (h₂ : m₂ < 10000)
    (h : pad4 m₁ = pad4 m₂) : m₁ = m₂ := by
  simp only [pad4, List.cons.injEq, and_true] at h
  obtain ⟨e₁, e₂, e₃, e₄⟩ := h
  have t₁ := congrArg Char.toNat e₁
  have t₂ := congrArg Char.toNat e₂
  have t₃ := congrArg Char.toNat e₃
  have t₄ := congrArg Char.toNat e₄
  rw [digitChar_toNat (Nat.mod_lt _ (by omega)),
    digitChar_toNat (Nat.mod_lt _ (by omega))] at t₁ t₂ t₃ t₄
  omega

lemma append_sep_inj :
    ∀ (s₁ s₂ r₁ r₂ : List Char) (sep : Char), sep ∉ s₁ → sep ∉ s₂ →
      s₁ ++ sep :: r₁ = s₂ ++ sep :: r₂ → s₁ = s₂ ∧ r₁ = r₂ := by
  intro s₁
  induction s₁ with
  | nil =>
    intro s₂ r₁ r₂ sep h₁ h₂ heq
    cases s₂ with
    | nil => simpa using heq
    | cons c t =>
      simp only [List.nil_append, List.cons_append, List.cons.injEq] at heq
      exact absurd (heq.1 ▸ List.mem_cons_self c t) h₂
  | cons c t ih =>
    intro s₂ r₁ r₂ sep h₁ h₂ heq
    cases s₂ with
    | nil =>
      simp only [List.nil_append, List.cons_append, List.cons.injEq] at heq
      exact absurd (heq.1 ▸ List.mem_cons_self sep t) h₁
    | cons c' t' =>
      simp only [List.cons_append, List.cons.injEq] at heq
      obtain ⟨rfl, heq'⟩ := heq
      have h₁' : sep ∉ t := fun hm => h₁ (List.mem_cons_of_mem _ hm)
      have h₂' : sep ∉ t' := fun hm => h₂ (List.mem_cons_of_mem _ hm)
      obtain ⟨rfl, hr⟩ := ih t' r₁ r₂ sep h₁' h₂' heq'
      exact ⟨rfl, hr⟩

lemma dash_toNat : ('-').toNat = 45 := by decide

lemma dot_toNat : ('.').toNat = 46 := by decide

lemma dash_not_mem_numChars (n : Nat) : '-' ∉ numChars n := by
  intro hm
  rcases List.mem_append.mp hm with h | h
  · have := mem_natChars_digit h
    rw [dash_toNat] at this
    omega
  · rcases List.mem_cons.mp h with h' | h'
    · exact absurd h' (by decide)
    · have := mem_pad4_digit h'
      rw [dash_toNat] at this
      omega

lemma dot_not_mem_natChars (n : Nat) : '.' ∉ natChars n := by
  intro hm
  have := mem_natChars_digit hm
  rw [dot_toNat] at this
  omega

lemma dot_not_mem_pad4 (m : Nat) : '.' ∉ pad4 m := by
  intro hm
  have := mem_pad4_digit hm
  rw [dot_toNat] at this
  omega

lemma numChars_inj {n₁ n₂ : Nat} (h : numChars n₁ = numChars n₂) : n₁ = n₂ := by
  unfold numChars at h
  obtain ⟨hint, hfrac⟩ :=
    append_sep_inj _ _ _ _ '.' (dot_not_mem_natChars _) (dot_not_mem_natChars _) h
  have h₁ := natChars_inj hint
  have h₂ := pad4_inj (Nat.mod_lt _ (by omega)) (Nat.mod_lt _ (by omega)) hfrac
  omega

lemma numChars_head_digit (n : Nat) :
    ∃ c l, numChars n = c :: l ∧ 48 ≤ c.toNat ∧ c.toNat ≤ 57 := by
  obtain ⟨c, l', hcl⟩ := List.exists_cons_of_ne_nil (natChars_ne_nil (n / 10000))
  refine ⟨c, l' ++ '.' :: pad4 (n % 10000), ?_, ?_⟩
  · unfold numChars
    rw [hcl, List.cons_append]
  · have hc : c ∈ natChars (n / 10000) := by
      rw [hcl]; exact List.mem_cons_self c l'
    exact mem_natChars_digit hc

lemma fmt4_of_nonneg {x : ℚ} (h : ¬x < 0) : fmt4 x = numChars (scaled4 x) := by
  simp [fmt4, h]

lemma fmt4_of_neg {x : ℚ} (h : x < 0) : fmt4 x = '-' :: numChars (scaled4 x) := by
  simp [fmt4, h]

lemma fmt4_sep_inj {x₁ x₂ : ℚ} {r₁ r₂ : List Char}
    (heq : fmt4 x₁ ++ '-' :: r₁ = fmt4 x₂ ++ '-' :: r₂) :
    round4rep x₁ = round4rep x₂ ∧ r₁ = r₂ := by
  by_cases hx₁ : x₁ < 0 <;> by_cases hx₂ : x₂ < 0
  · rw [fmt4_of_neg hx₁, fmt4_of_neg hx₂] at heq
    simp only [List.cons_append, List.cons.injEq, true_and] at heq
    obtain ⟨hnum, hr⟩ :=
      append_sep_inj _ _ _ _ '-' (dash_not_mem_numChars _) (dash_not_mem_numChars _) heq
    exact ⟨by simp [round4rep, hx₁, hx₂, numChars_inj hnum], hr⟩
  · rw [fmt4_of_neg hx₁, fmt4_of_nonneg hx₂] at heq
    obtain ⟨c, l, hcl, hc48, _⟩ := numChars_head_digit (scaled4 x₂)
    rw [hcl] at heq
    simp only [List.cons_append, List.cons.injEq] at heq
    have hcc : ('-').toNat = c.toNat := congrArg Char.toNat heq.1
    rw [dash_toNat] at hcc
    omega
  · rw [fmt4_of_nonneg hx₁, fmt4_of_neg hx₂] at heq
    obtain ⟨c, l, hcl, hc48, _⟩ := numChars_head_digit (scaled4 x₁)
    rw [hcl] at heq
    simp only [List.cons_append, List.cons.injEq] at heq
    have hcc : c.toNat = ('-').toNat := congrArg Char.toNat heq.1
    rw [dash_toNat] at hcc
    omega
  · rw [fmt4_of_nonneg hx₁, fmt4_of_nonneg hx₂] at heq
    obtain ⟨hnum, hr⟩ :=
      append_sep_inj _ _ _ _ '-' (dash_not_mem_numChars _) (dash_not_mem_numChars _) heq
    exact ⟨by simp [round4rep, hx₁, hx₂, numChars_inj hnum], hr⟩

lemma dash_not_mem_boolChars : ∀ b : Bool, '-' ∉ boolChars b := by decide

lemma boolChars_inj : ∀ {b₁ b₂ : Bool}, boolChars b₁ = boolChars b₂ → b₁ = b₂ := by
  decide

lemma keyMaterial_fields {lat₁ lon₁ lat₂ lon₂ : ℚ} {d₁ h₁ d₂ h₂ : Bool}
    {u₁ u₂ : String}
    (heq : keyMaterial lat₁ lon₁ d₁ h₁ u₁ = keyMaterial lat₂ lon₂ d₂ h₂ u₂) :
    round4rep lat₁ = round4rep lat₂ ∧ round4rep lon₁ = round4rep lon₂ ∧
      d₁ = d₂ ∧ h₁ = h₂ ∧ u₁ = u₂ := by
  unfold keyMaterial at heq
  obtain ⟨hlat, heq⟩ := fmt4_sep_inj heq
  obtain ⟨hlon, heq⟩ := fmt4_sep_inj heq
  simp only [List.cons.injEq, true_and] at heq
  obtain ⟨hd, heq⟩ :=
    append_sep_inj _ _ _ _ '-' (dash_not_mem_boolChars _) (dash_not_mem_boolChars _) heq
  simp only [List.cons.injEq, true_and] at heq
  obtain ⟨hh, heq⟩ :=
    append_sep_inj _ _ _ _ '-' (dash_not_mem_boolChars _) (dash_not_mem_boolChars _) heq
  simp only [List.cons.injEq, true_and] at heq
  refine ⟨hlat, hlon, boolChars_inj hd, boolChars_inj hh, ?_⟩
  cases u₁; cases u₂
  exact congrArg String.mk (by simpa using heq)

lemma fmt4_eq_of_rep {x₁ x₂ : ℚ} (h : round4rep x₁ = round4rep x₂) :
    fmt4 x₁ = fmt4 x₂ := by
  have hs : scaled4 x₁ = scaled4 x₂ := congrArg Prod.snd h
  have hsign : decide (x₁ < 0) = decide (x₂ < 0) := congrArg Prod.fst h
  have hiff : x₁ < 0 ↔ x₂ < 0 := by
    constructor
    · intro h'
      exact of_decide_eq_true (hsign ▸ decide_eq_true h')
    · intro h'
      exact of_decide_eq_true (hsign.symm ▸ decide_eq_true h')
  by_cases h₁ : x₁ < 0
  · rw [fmt4_of_neg h₁, fmt4_of_neg (hiff.mp h₁), hs]
  · rw [fmt4_of_nonneg h₁, fmt4_of_nonneg (fun hc => h₁ (hiff.mpr hc)), hs]

lemma scaled4_4em5 : scaled4 ((4 : ℚ) / 100000) = 0 := by
  have h : round ((4 : ℚ) / 100000 * 10000) = 0 := by rw [round_eq]; norm_num
  unfold scaled4
  rw [abs_of_nonneg (by norm_num : (0 : ℚ) ≤ 4 / 100000), h]
  rfl

lemma scaled4_9em5 : scaled4 ((9 : ℚ) / 100000) = 1 := by
  have h : round ((9 : ℚ) / 100000 * 10000) = 1 := by rw [round_eq]; norm_num
  unfold scaled4
  rw [abs_of_nonneg (by norm_num : (0 : ℚ) ≤ 9 / 100000), h]
  rfl

lemma scaled4_1em5 : scaled4 ((1 : ℚ) / 100000) = 0 := by
  have h : round ((1 : ℚ) / 100000 * 10000) = 0 := by rw [round_eq]; norm_num
  unfold scaled4
  rw [abs_of_nonneg (by norm_num : (0 : ℚ) ≤ 1 / 100000), h]
  rfl

lemma scaled4_zero : scaled4 (0 : ℚ) = 0 := by
  unfold scaled4
  rw [abs_zero, zero_mul, round_zero]
  rfl

lemma round4rep_4em5 : round4rep ((4 : ℚ) / 100000) = (false, 0) := by
  rw [round4rep, scaled4_4em5, decide_eq_false (by norm_num : ¬(4 : ℚ) / 100000 < 0)]

lemma round4rep_1em5 : round4rep ((1 : ℚ) / 100000) = (false, 0) := by
  rw [round4rep, scaled4_1em5, decide_eq_false (by norm_num : ¬(1 : ℚ) / 100000 < 0)]

/-- Claim C9: the pre-hash key material composed by `generateCacheKey` is
injective on the rounded inputs: two parameter tuples whose latitudes or
longitudes print differently at 4 decimal places (different `%.4f`
representation, i.e. sign or rounded magnitude), or whose boolean flags or
unit-system strings differ, produce distinct material strings — key
collisions can only come from the md5 hash itself. -/
theorem keyMaterial_injective_on_rounded (lat₁ lon₁ lat₂ lon₂ : ℚ)
    (d₁ h₁ d₂ h₂ : Bool) (u₁ u₂ : String)
    (hne : round4rep lat₁ ≠ round4rep lat₂ ∨ round4rep lon₁ ≠ round4rep lon₂ ∨
      d₁ ≠ d₂ ∨ h₁ ≠ h₂ ∨ u₁ ≠ u₂) :
    keyMaterial lat₁ lon₁ d₁ h₁ u₁ ≠ keyMaterial lat₂ lon₂ d₂ h₂ u₂ := by
  intro heq
  obtain ⟨hlat, hlon, hd, hh, hu⟩ := keyMaterial_fields heq
  rcases hne with h | h | h | h | h <;> exact h (by assumption)

/-- Witness for C9 at concrete inputs: tuples differing only in the
unit-system string yield distinct key material. -/
theorem keyMaterial_injective_on_rounded_witness :
    ("metric" : String) ≠ "imperial" ∧
      keyMaterial 0 0 false false "metric" ≠ keyMaterial 0 0 false false "imperial" :=
  ⟨by decide,
    keyMaterial_injective_on_rounded 0 0 0 0 false false false false "metric" "imperial"
      (Or.inr (Or.inr (Or.inr (Or.inr (by decide)))))⟩

/-- Claim C5 (amended): two calls of `generateCacheKey` whose latitude and
longitude have the same 4-decimal `%.4f` representation (same sign and same
rounded magnitude), with all other parameters equal, yield the same key.
Coordinates differing only in the 5th decimal digit therefore collide
exactly when they round to the same 4-decimal value, not unconditionally. -/
theorem generateCacheKey_same_rounded_key (lat₁ lon₁ lat₂ lon₂ : ℚ)
    (daily hourly : Bool) (u : String)
    (hlat : round4rep lat₁ = round4rep lat₂)
    (hlon : round4rep lon₁ = round4rep lon₂) :
    generateCacheKey lat₁ lon₁ daily hourly u =
      generateCacheKey lat₂ lon₂ daily hourly u := by
  unfold generateCacheKey keyMaterial
  rw [fmt4_eq_of_rep hlat, fmt4_eq_of_rep hlon]

/-- Witness for C5 (amended): 0.00004 and 0.00001 both print as 0.0000, and
the keys agree. -/
theorem generateCacheKey_same_rounded_key_witness :
    round4rep ((4 : ℚ) / 100000) = round4rep ((1 : ℚ) / 100000) ∧
      generateCacheKey ((4 : ℚ) / 100000) 0 true false "metric" =
        generateCacheKey ((1 : ℚ) / 100000) 0 true false "metric" :=
  ⟨round4rep_4em5.trans round4rep_1em5.symm,
    generateCacheKey_same_rounded_key _ _ _ _ true false "metric"
      (round4rep_4em5.trans round4rep_1em5.symm) rfl⟩

set_option maxRecDepth 40000 in
/-- Counterexample to claim C5 as stated: latitudes 0.00004 and 0.00009
differ only in the 5th decimal digit (all other parameters equal), yet
they round to 0.0000 and 0.0001 respectively, so the two calls yield
different keys. -/
theorem generateCacheKey_fifth_digit_counterexample :
    generateCacheKey ((4 : ℚ) / 100000) 0 false false "" ≠
      generateCacheKey ((9 : ℚ) / 100000) 0 false false "" := by
  have e₄ : fmt4 ((4 : ℚ) / 100000) = numChars 0 := by
    rw [fmt4_of_nonneg (by norm_num), scaled4_4em5]
  have e₉ : fmt4 ((9 : ℚ) / 100000) = numChars 1 := by
    rw [fmt4_of_nonneg (by norm_num), scaled4_9em5]
  have e₀ : fmt4 (0 : ℚ) = numChars 0 := by
    rw [fmt4_of_nonneg (by norm_num), scaled4_zero]
  simp only [generateCacheKey, keyMaterial, e₄, e₉, e₀]
  decide

/-! ### Cache store claims -/

lemma readFile_getCacheDir (fs : FileSys) (p : String) :
    readFile (getCacheDir fs).2 p = readFile fs p := rfl

lemma readFile_writeFile_self (fs : FileSys) (p : String) (b : Blob) :
    readFile (writeFile fs p b) p = some b := by
  simp [readFile, writeFile, List.lookup]

lemma checkCache_after_write (fs' : FileSys) (now : ℤ) (key : String)
    (c : CacheFile) :
    (checkCache (writeFile fs' (cachePath key) (encodeCacheFile c)) now key).1 =
      if now - c.timestamp > cacheDuration then (emptyWeatherData, false)
      else (c.data, true) := by
  simp only [checkCache]
  rw [show (getCacheDir (writeFile fs' (cachePath key) (encodeCacheFile c))).1 ++
      "/" ++ (key ++ ".json") = cachePath key from rfl,
    readFile_getCacheDir, readFile_writeFile_self]
  simp only [encodeCacheFile, decodeCacheFile]
  split <;> rfl

/-- Claim C1 (amended): for a cache entry on disk that decodes, `checkCache`
returns absent exactly when the entry's age `now - timestamp` strictly
exceeds the one-hour freshness window, and present exactly when the age is
at most the window; an entry whose age is exactly the window edge is
treated as fresh (present), not stale, because the code uses a strict `>`
staleness test. -/
theorem checkCache_freshness_window (fs : FileSys) (now : ℤ) (key : String)
    (c : CacheFile) (blob : Blob)
    (hread : readFile fs (cachePath key) = some blob)
    (hdec : decodeCacheFile blob = some c) :
    ((checkCache fs now key).1.2 = true ↔ now - c.timestamp ≤ cacheDuration) ∧
    ((checkCache fs now key).1.2 = false ↔ now - c.timestamp > cacheDuration) ∧
    (now - c.timestamp ≤ cacheDuration →
      (checkCache fs now key).1 = (c.data, true)) := by
  have hres : checkCache fs now key =
      (if now - c.timestamp > cacheDuration then (emptyWeatherData, false)
        else (c.data, true), (getCacheDir fs).2) := by
    simp only [checkCache]
    rw [show (getCacheDir fs).1 ++ "/" ++ (key ++ ".json") = cachePath key from rfl,
      readFile_getCacheDir, hread]
    simp only [hdec]
    split <;> rfl
  by_cases h : now - c.timestamp > cacheDuration
  · rw [hres, if_pos h]
    exact ⟨⟨fun hx => by simp at hx, fun hx => absurd h (not_lt.mpr hx)⟩,
      ⟨fun _ => h, fun _ => rfl⟩,
      fun hx => absurd h (not_lt.mpr hx)⟩
  · rw [hres, if_neg h]
    exact ⟨⟨fun _ => le_of_not_lt h, fun _ => rfl⟩,
      ⟨fun hx => by simp at hx, fun hx => absurd hx h⟩,
      fun _ => rfl⟩

/-- The concrete cache state used for the C1 witness and counterexample:
one entry for key `k`, created at time 0. -/
def fsC1 : FileSys :=
  { files := [(cachePath "k", Blob.cacheEnc { timestamp := 0, data := emptyWeatherData })]
    dirs := [] }

/-- Witness for C1 at a concrete state: the entry written at time 0 is
absent at `now = 7200` (age two hours, beyond the window) and present at
`now = 1800` (age half an hour, within the window). -/
theorem checkCache_freshness_window_witness :
    readFile fsC1 (cachePath "k") =
      some (Blob.cacheEnc { timestamp := 0, data := emptyWeatherData }) ∧
    decodeCacheFile (Blob.cacheEnc { timestamp := 0, data := emptyWeatherData }) =
      some { timestamp := 0, data := emptyWeatherData } ∧
    ((checkCache fsC1 7200 "k").1.2 = false ↔
      (7200 : ℤ) - 0 > cacheDuration) ∧
    ((checkCache fsC1 1800 "k").1.2 = true ↔
      (1800 : ℤ) - 0 ≤ cacheDuration) :=
  ⟨rfl, rfl,
    (checkCache_freshness_window fsC1 7200 "k"
      { timestamp := 0, data := emptyWeatherData } _ rfl rfl).2.1,
    (checkCache_freshness_window fsC1 1800 "k"
      { timestamp := 0, data := emptyWeatherData } _ rfl rfl).1⟩

/-- Counterexample to claim C1 as stated: the claim demands that an entry
whose age is exactly the freshness window be treated as stale (absent),
but at `now = 3600` the entry created at time 0 — age exactly one hour —
is returned as present (`3600 > 3600` is false in the code's test). -/
theorem checkCache_edge_counterexample :
    (checkCache fsC1 3600 "k").1.2 = true := by decide

/-- Claim C4 (amended): `checkCache` writes no file — the file map is
exactly that of the input state — but it is not entirely read-only: its
call to `getCacheDir` runs `os.MkdirAll`, so the returned state is the
input state with the cache directory ensured to exist. -/
theorem checkCache_state_effect (fs : FileSys) (now : ℤ) (key : String) :
    (checkCache fs now key).2 = mkdirAll ("/tmp" ++ "/" ++ "weather-cache") fs ∧
    ((checkCache fs now key).2).files = fs.files := by
  have h : (checkCache fs now key).2 =
      mkdirAll ("/tmp" ++ "/" ++ "weather-cache") fs := by
    simp only [checkCache, getCacheDir]
    split
    · rfl
    · split
      · rfl
      · split <;> rfl
  exact ⟨h, by rw [h]; rfl⟩

/-- Counterexample to claim C4 as stated: on a state where the cache
directory does not exist, `checkCache` changes the filesystem state — it
creates the cache directory via `getCacheDir`'s `os.MkdirAll`. -/
theorem checkCache_readonly_counterexample :
    (checkCache { files := [], dirs := [] } 0 "k").2 ≠
      ({ files := [], dirs := [] } : FileSys) := by
  intro h
  have hd := congrArg FileSys.dirs h
  have he : FileSys.dirs (checkCache { files := [], dirs := [] } 0 "k").2 =
      ["/tmp/weather-cache"] := by decide
  rw [he] at hd
  exact absurd hd (by decide)

/-- Claim C2: `checkCache` immediately after a successful `saveToCache` of a
decodable payload under the same key returns present with the stored
snapshot unchanged; the parallel daily/hourly series of the returned
snapshot keep their equal lengths. -/
theorem saveToCache_then_checkCache_roundtrip (fs : FileSys) (now : ℤ)
    (key : String) (payload : Blob) (w : WeatherData)
    (hdec : decodeWeatherData payload = some w) (hwf : wellFormed w) :
    (saveToCache fs now key payload).1 = Except.ok () ∧
    (checkCache (saveToCache fs now key payload).2 now key).1 = (w, true) ∧
    wellFormed ((checkCache (saveToCache fs now key payload).2 now key).1.1) := by
  have hsave : saveToCache fs now key payload =
      (Except.ok (), writeFile (getCacheDir fs).2 (cachePath key)
        (encodeCacheFile { timestamp := now, data := w })) := by
    simp only [saveToCache, hdec]
    rfl
  have h2 : (saveToCache fs now key payload).2 =
      writeFile (getCacheDir fs).2 (cachePath key)
        (encodeCacheFile { timestamp := now, data := w }) := by
    rw [hsave]
  have hcheck : (checkCache (saveToCache fs now key payload).2 now key).1 =
      (w, true) := by
    rw [h2, checkCache_after_write]
    rw [if_neg (show ¬(now -
      ({ timestamp := now, data := w } : CacheFile).timestamp > cacheDuration) from by
        unfold cacheDuration
        simp only []
        omega)]
  refine ⟨by rw [hsave], hcheck, ?_⟩
  rw [hcheck]
  exact hwf

/-- The concrete snapshot used for the C2 witness, with two-day daily and
one-hour hourly parallel series of matching lengths. -/
def wC2 : WeatherData :=
  { currentWeather :=
      { temperature := 21, windSpeed := 10, weatherCode := 2, time := "2026-10-11T12:00" }
    daily :=
      { time := ["2026-10-11", "2026-10-12"], weatherCode := [1, 3],
        temperatureMax := [25, 24], temperatureMin := [15, 14],
        precipitationSum := [0, 1] }
    hourly :=
      { time := ["2026-10-11T12:00"], temperature := [21],
        precipitation := [0], weatherCode := [2] } }

/-- Witness for C2 at a concrete payload and state: storing then looking up
returns the stored snapshot. -/
theorem saveToCache_then_checkCache_roundtrip_witness :
    decodeWeatherData (Blob.rawWeather wC2) = some wC2 ∧ wellFormed wC2 ∧
    (checkCache (saveToCache { files := [], dirs := [] } 100 "k"
      (Blob.rawWeather wC2)).2 100 "k").1 = (wC2, true) :=
  ⟨rfl, by decide,
    (saveToCache_then_checkCache_roundtrip { files := [], dirs := [] } 100 "k"
      (Blob.rawWeather wC2) wC2 rfl (by decide)).2.1⟩

/-- Claim C3: `saveToCache` with a payload that fails to decode returns the
unmarshal error before touching the filesystem: the whole state — in
particular any pre-existing cache file for that key — is unchanged. -/
theorem saveToCache_invalid_payload_no_write (fs : FileSys) (now : ℤ)
    (key : String) (payload : Blob)
    (hdec : decodeWeatherData payload = none) :
    saveToCache fs now key payload =
      (Except.error "invalid character looking for beginning of value", fs) ∧
    readFile (saveToCache fs now key payload).2 (cachePath key) =
      readFile fs (cachePath key) := by
  have h : saveToCache fs now key payload =
      (Except.error "invalid character looking for beginning of value", fs) := by
    unfold saveToCache
    rw [hdec]
  exact ⟨h, by rw [h]⟩

/-- The concrete pre-existing cache state used for the C3 witness. -/
def fsC3 : FileSys :=
  { files := [(cachePath "k", Blob.cacheEnc { timestamp := 5, data := emptyWeatherData })]
    dirs := [] }

/-- Witness for C3 at a concrete state: a junk payload is rejected and the
pre-existing file for the key is untouched. -/
theorem saveToCache_invalid_payload_no_write_witness :
    decodeWeatherData (Blob.junk 7) = none ∧
    saveToCache fsC3 0 "k" (Blob.junk 7) =
      (Except.error "invalid character looking for beginning of value", fsC3) :=
  ⟨rfl, (saveToCache_invalid_payload_no_write fsC3 0 "k" (Blob.junk 7) rfl).1⟩

/-! ### Classifier and unit-lookup claims -/

lemma colorizeTempColorCode_fin (x : ℚ) :
    colorizeTempColorCode (GoFloat.fin x) =
      if x < -10 then colorBlue
      else if x < 0 then colorCyan
      else if x < 15 then colorWhite
      else if x < 25 then colorGreen
      else if x < 30 then colorYellow
      else if x < 35 then colorMagenta
      else colorRed := by
  simp only [colorizeTempColorCode, fLt, decide_eq_true_eq]

/-- Claim C6: the temperature classifier in `colorizeTemp` is total on the
finite Celsius values and picks exactly one of the seven colors through
half-open intervals with exclusive upper bounds -10, 0, 15, 25, 30, 35
(blue = VeryCold, cyan = Cold, white = Cool, green = Pleasant,
yellow = Warm, magenta = Hot, red = VeryHot); in particular -10 is Cold
(cyan, not blue), 34.999 is Hot (magenta), and 35 is VeryHot (red). -/
theorem colorizeTemp_classifier_spec (q : ℚ) :
    (colorizeTempColorCode (GoFloat.fin q) = colorBlue ↔ q < -10) ∧
    (colorizeTempColorCode (GoFloat.fin q) = colorCyan ↔ -10 ≤ q ∧ q < 0) ∧
    (colorizeTempColorCode (GoFloat.fin q) = colorWhite ↔ 0 ≤ q ∧ q < 15) ∧
    (colorizeTempColorCode (GoFloat.fin q) = colorGreen ↔ 15 ≤ q ∧ q < 25) ∧
    (colorizeTempColorCode (GoFloat.fin q) = colorYellow ↔ 25 ≤ q ∧ q < 30) ∧
    (colorizeTempColorCode (GoFloat.fin q) = colorMagenta ↔ 30 ≤ q ∧ q < 35) ∧
    (colorizeTempColorCode (GoFloat.fin q) = colorRed ↔ 35 ≤ q) ∧
    colorizeTempColorCode (GoFloat.fin (-10)) = colorCyan ∧
    colorizeTempColorCode (GoFloat.fin (34999 / 1000)) = colorMagenta ∧
    colorizeTempColorCode (GoFloat.fin 35) = colorRed := by
  have hc1 : colorizeTempColorCode (GoFloat.fin (-10)) = colorCyan := by
    rw [colorizeTempColorCode_fin]
    norm_num
  have hc2 : colorizeTempColorCode (GoFloat.fin (34999 / 1000)) = colorMagenta := by
    rw [colorizeTempColorCode_fin]
    norm_num
  have hc3 : colorizeTempColorCode (GoFloat.fin 35) = colorRed := by
    rw [colorizeTempColorCode_fin]
    norm_num
  rw [colorizeTempColorCode_fin]
  split_ifs with h1 h2 h3 h4 h5 h6 <;>
    refine ⟨⟨fun hx => ?_, fun hx => ?_⟩, ⟨fun hx => ?_, fun hx => ?_⟩,
      ⟨fun hx => ?_, fun hx => ?_⟩, ⟨fun hx => ?_, fun hx => ?_⟩,
      ⟨fun hx => ?_, fun hx => ?_⟩, ⟨fun hx => ?_, fun hx => ?_⟩,
      ⟨fun hx => ?_, fun hx => ?_⟩, hc1, hc2, hc3⟩ <;>
    first
      | rfl
      | linarith
      | exact absurd hx (by decide)
      | (exfalso; rcases hx with ⟨hxa, hxb⟩; linarith)
      | (rcases hx with ⟨hxa, hxb⟩; rfl)
      | (constructor <;> linarith)

/-- Claim C7: the conversion step of `colorizeTemp` applies
`(value - 32) * 5 / 9` exactly when the unit system is the imperial
identifier and returns the value unchanged for every other unit system;
in particular 32 °F normalizes to 0 °C and 20 °C is unchanged under
metric. -/
theorem colorizeTemp_normalize_spec (v : ℚ) (u : UnitSystem) :
    (colorizeTempNormalize (GoFloat.fin v) u =
      if u = UnitImperial then GoFloat.fin ((v - 32) * 5 / 9)
      else GoFloat.fin v) ∧
    colorizeTempNormalize (GoFloat.fin 32) UnitImperial = GoFloat.fin 0 ∧
    colorizeTempNormalize (GoFloat.fin 20) UnitMetric = GoFloat.fin 20 := by
  refine ⟨?_, ?_, ?_⟩
  · unfold colorizeTempNormalize
    by_cases h : u = UnitImperial
    · rw [if_pos h, if_pos h]
      rfl
    · rw [if_neg h, if_neg h]
  · unfold colorizeTempNormalize
    rw [if_pos rfl]
    simp only [fSub, fMul, fDiv, GoFloat.fin.injEq]
    norm_num
  · unfold colorizeTempNormalize
    rw [if_neg (by decide)]

/-- Claim C8: the three display-unit lookups return the metric strings
(`°C`, `km/h`, `mm`) for every unit-system string other than the imperial
identifier — including unrecognized values and the empty string — and the
imperial strings (`°F`, `mph`, `in`) for the imperial identifier. -/
theorem unit_lookup_defaults (u : UnitSystem) :
    (u ≠ UnitImperial →
      getTempUnit u = "°C" ∧ getWindUnit u = "km/h" ∧ getPrecipUnit u = "mm") ∧
    (getTempUnit UnitImperial = "°F" ∧ getWindUnit UnitImperial = "mph" ∧
      getPrecipUnit UnitImperial = "in") := by
  refine ⟨fun h => ?_, ?_⟩
  · unfold getTempUnit getWindUnit getPrecipUnit
    rw [if_neg h, if_neg h, if_neg h]
    exact ⟨rfl, rfl, rfl⟩
  · unfold getTempUnit getWindUnit getPrecipUnit
    rw [if_pos rfl, if_pos rfl, if_pos rfl]
    exact ⟨rfl, rfl, rfl⟩

/-- Witness for C8 at concrete inputs: the empty unit-system string is not
the imperial identifier and gets the metric unit strings. -/
theorem unit_lookup_defaults_witness :
    ("" : UnitSystem) ≠ UnitImperial ∧ getTempUnit "" = "°C" ∧
      getWindUnit "" = "km/h" ∧ getPrecipUnit "" = "mm" :=
  ⟨by decide, ((unit_lookup_defaults "").1 (by decide)).1,
    ((unit_lookup_defaults "").1 (by decide)).2.1,
    ((unit_lookup_defaults "").1 (by decide)).2.2⟩

/-- Claim C10: for a NaN temperature every comparison against the
thresholds is false, so the classification in `colorizeTemp` falls through
every branch to the default and picks the very-hot red color, in either
unit system, without erroring. -/
theorem colorizeTemp_nan_very_hot :
    (∀ c : GoFloat, fLt GoFloat.nan c = false) ∧
    colorizeTempColorCode GoFloat.nan = colorRed ∧
    (∀ u : UnitSystem, colorizeTempColor GoFloat.nan u = colorRed) := by
  refine ⟨fun c => ?_, rfl, fun u => ?_⟩
  · cases c <;> rfl
  · unfold colorizeTempColor colorizeTempNormalize
    by_cases h : u = UnitImperial
    · rw [if_pos h]
      rfl
    · rw [if_neg h]
      rfl
